import Mathlib

/-!
# Verification of the gobuddy CLI deployment flow

A shallow embedding of the gobuddy command-line client (Go sources under
`cmd/` and `internal/`) together with proofs about its configuration
handling, its Buddy-API branch lookup, and its `deploy` orchestration
(guard policy, confirmation, trigger, and status-poll loop).

Conventions of the embedding:
* Go structs become Lean structures with the exported Go field names.
* HTTP interactions and interactive prompts are modelled as explicit
  inputs (an environment record scripting the responses and the answers),
  and the observable effects the command performs (API calls, prompts,
  sleeps) are collected into an event trace.
* `log.Fatalf` / early `return` / `break` become explicit `Outcome`
  constructors.
* `encoding/json` for the fixed `Config` shape is modelled on a small
  JSON value AST (text-level parsing is out of scope; the spec treats
  JSON parsing as a standard-library collaborator).
-/

namespace GoBuddy

/-! ## Data model (internal/interface.go, cmd/config.go) -/

/-- `Project` struct from internal/interface.go (fields used by the CLI). -/
structure Project where
  Name : String
  DisplayName : String
  Status : String
deriving Repr, DecidableEq

/-- `Branch` struct from internal/interface.go. -/
structure Branch where
  URL : String
  HTMLURL : String
  Name : String
  Default : Bool
deriving Repr, DecidableEq

/-- `Pipeline` struct from internal/interface.go. -/
structure Pipeline where
  URL : String
  HTMLURL : String
  ID : Int
  Name : String
  Priority : String
  Refs : List String
deriving Repr, DecidableEq

/-- `Creator` struct from internal/interface.go (field used by deploy). -/
structure Creator where
  Name : String
deriving Repr, DecidableEq

/-- `PipelineExecutionResponse` struct from internal/interface.go
(the fields the deploy command reads). -/
structure PipelineExecutionResponse where
  ID : Int
  TriggeredOn : String
  Status : String
  HTMLURL : String
  Creator : Creator
  Pipeline : Pipeline
deriving Repr, DecidableEq

/-- `ErrorDetail` struct from internal/interface.go. -/
structure ErrorDetail where
  Message : String
deriving Repr, DecidableEq

/-- `ErrorResponse` struct from internal/interface.go. -/
structure ErrorResponse where
  Errors : List ErrorDetail
deriving Repr, DecidableEq

/-- `Protected` struct from cmd/config.go. -/
structure «Protected» where
  Pipeline : String
  Branch : String
deriving Repr, DecidableEq

/-- `Config` struct from cmd/config.go: token, workspace and the
protected sub-record. -/
structure Config where
  Token : String
  Workspace : String
  Protected : «Protected»
deriving Repr, DecidableEq

/-! ## JSON model for the config file and API bodies

A minimal JSON value AST sufficient for the documents the program
round-trips: strings, booleans, integers and objects. -/

/-- JSON values (the fragment the program reads and writes). -/
inductive Json where
  | str (s : String)
  | bool (b : Bool)
  | num (n : Int)
  | obj (fields : List (String × Json))

/-- First-match field lookup in a JSON object body.  The documents the
program writes carry each key at most once, so this agrees with Go's
behaviour on them. -/
def lookupField (fields : List (String × Json)) (key : String) : Option Json :=
  match fields with
  | [] => none
  | (k, v) :: rest => if k = key then some v else lookupField rest key

/-- Go's `strings.ToLower`, embedded as a character-wise lowercase map
(the program only lower-cases ASCII key and answer strings, on which
this agrees with Go). -/
def strToLower (s : String) : String :=
  ⟨s.data.map Char.toLower⟩

/-! ## Config marshalling (cmd/config.go `saveConfig` / `loadConfig`)

Go's `json.MarshalIndent` on `Config`: `token` and `workspace` are always
emitted; `protected` carries `omitempty` but, being a struct value, is
never considered empty by Go, so it is always emitted too; inside it,
`pipeline` and `branch` carry `omitempty` on strings and are omitted when
empty.  `json.Unmarshal` into a zero `Config` leaves absent fields at
their zero value `""` and fails on a type mismatch. -/

/-- Marshal the `Protected` sub-record: string fields with `omitempty`. -/
def marshalProtected (p : «Protected») : Json :=
  Json.obj
    ((if p.Pipeline = "" then [] else [("pipeline", Json.str p.Pipeline)]) ++
     (if p.Branch = "" then [] else [("branch", Json.str p.Branch)]))

/-- Marshal a `Config` as `saveConfig` serialises it. -/
def marshalConfig (c : Config) : Json :=
  Json.obj
    [("token", Json.str c.Token),
     ("workspace", Json.str c.Workspace),
     ("protected", marshalProtected c.Protected)]

/-- Decode a JSON value as a Go string field (type mismatch fails). -/
def decodeStr : Json → Option String
  | Json.str s => some s
  | _ => none

/-- Decode an optional string field: absent means zero value `""`. -/
def decodeStrField (fields : List (String × Json)) (key : String) : Option String :=
  match lookupField fields key with
  | none => some ""
  | some v => decodeStr v

/-- Unmarshal the `Protected` sub-record. -/
def unmarshalProtected (j : Json) : Option «Protected» :=
  match j with
  | Json.obj fields =>
    match decodeStrField fields "pipeline", decodeStrField fields "branch" with
    | some pl, some br => some ⟨pl, br⟩
    | _, _ => none
  | _ => none

/-- Unmarshal a `Config` from a JSON document, as `json.Unmarshal` into a
zero `Config` does: absent fields keep their zero value. -/
def unmarshalConfig (j : Json) : Option Config :=
  match j with
  | Json.obj fields =>
    match decodeStrField fields "token", decodeStrField fields "workspace" with
    | some tok, some ws =>
      match lookupField fields "protected" with
      | none => some ⟨tok, ws, ⟨"", ""⟩⟩
      | some pj =>
        match unmarshalProtected pj with
        | some p => some ⟨tok, ws, p⟩
        | none => none
    | _, _ => none
  | _ => none

/-- `saveConfig`: the config-file document produced by saving `c`
(the file-system write itself is a standard-library collaborator). -/
def saveConfig (c : Config) : Json :=
  marshalConfig c

/-- `loadConfig`: read the config file (`none` models a read error such
as a missing file) and unmarshal it. -/
def loadConfig (file : Option Json) : Except String Config :=
  match file with
  | none => Except.error "read error"
  | some j =>
    match unmarshalConfig j with
    | some c => Except.ok c
    | none => Except.error "unmarshal error"

/-! ## `config set` argument handling (cmd/config.go `setConfigFromArgs`) -/

/-- Possible outcomes of `setConfigFromArgs`: the saved configuration,
a fatal error before saving, or the interactive `setConfig` path taken
when no arguments are given. -/
inductive SetConfigResult where
  | saved (c : Config)
  | fatal (msg : String)
  | interactive
deriving Repr, DecidableEq

/-- `setConfigFromArgs` from cmd/config.go: with at least two arguments,
lower-case the key, update exactly one field of the loaded configuration
and save; an unrecognised key is fatal before saving; no arguments takes
the interactive path; exactly one argument is fatal. -/
def setConfigFromArgs (config : Config) (args : List String) : SetConfigResult :=
  match args with
  | key :: value :: _ =>
    let k := strToLower key
    if k = "token" then
      SetConfigResult.saved { config with Token := value }
    else if k = "workspace" then
      SetConfigResult.saved { config with Workspace := value }
    else if k = "protected_pipeline" then
      SetConfigResult.saved { config with Protected := { config.Protected with Pipeline := value } }
    else if k = "protected_branch" then
      SetConfigResult.saved { config with Protected := { config.Protected with Branch := value } }
    else
      SetConfigResult.fatal ("Invalid argument: " ++ k ++ ". Use " ++ "token or workspace.")
  | [] => SetConfigResult.interactive
  | [_] => SetConfigResult.fatal "Invalid number of arguments. You must provide a key and a value."

/-! ## Branch lookup (internal/client.go `FetchBranchByName`) -/

/-- A response body as the client consumes it: unreadable, not valid
JSON, or a decoded JSON value. -/
inductive HttpBody where
  | readError (msg : String)
  | invalidJson
  | json (j : Json)

/-- The possible outcomes of issuing the HTTP request underlying a
client call: the request could not be built, the transport failed
(no response at all), or a response with a status code and body arrived. -/
inductive HttpResult where
  | buildError (msg : String)
  | transportError (msg : String)
  | response (status : Nat) (body : HttpBody)

/-- Decode a JSON value as a Go bool field (type mismatch fails). -/
def decodeBool : Json → Option Bool
  | Json.bool b => some b
  | _ => none

/-- Decode an optional bool field: absent means zero value `false`. -/
def decodeBoolField (fields : List (String × Json)) (key : String) : Option Bool :=
  match lookupField fields key with
  | none => some false
  | some v => decodeBool v

/-- `json.Unmarshal` of a response body into a zero `Branch`. -/
def unmarshalBranch (j : Json) : Option Branch :=
  match j with
  | Json.obj fields =>
    match decodeStrField fields "url", decodeStrField fields "html_url",
          decodeStrField fields "name", decodeBoolField fields "default" with
    | some url, some hurl, some name, some dflt => some ⟨url, hurl, name, dflt⟩
    | _, _, _, _ => none
  | _ => none

/-- The error value `FetchBranchByName` builds for a non-200 response. -/
def branchNotFoundError (project branch : String) : ErrorResponse :=
  ⟨[⟨"Branch " ++ branch ++ " not found in project " ++ project⟩]⟩

/-- `FetchBranchByName` from internal/client.go, as a function of the
HTTP outcome: request-build and transport failures report dedicated
messages; ANY response with status other than 200 reports the
branch-not-found message (the body is not consulted); a 200 response is
read and unmarshalled, each failure reporting its own message. -/
def FetchBranchByName (project branch : String) (r : HttpResult) :
    Except ErrorResponse Branch :=
  match r with
  | HttpResult.buildError msg =>
    Except.error ⟨[⟨"Failed to build request to get branch: " ++ msg⟩]⟩
  | HttpResult.transportError msg =>
    Except.error ⟨[⟨"Failed to fetch branch: " ++ msg⟩]⟩
  | HttpResult.response status body =>
    if status ≠ 200 then
      Except.error (branchNotFoundError project branch)
    else
      match body with
      | HttpBody.readError msg =>
        Except.error ⟨[⟨"Failed to read response body: " ++ msg⟩]⟩
      | HttpBody.invalidJson =>
        Except.error ⟨[⟨"Failed to unmarshal branch response"⟩]⟩
      | HttpBody.json j =>
        match unmarshalBranch j with
        | none => Except.error ⟨[⟨"Failed to unmarshal branch response"⟩]⟩
        | some b => Except.ok b

/-! ## Deploy command (cmd/deploy.go)

The interactive `deploy` flow is embedded as a pure function of the
configuration, the parsed flags/arguments, and an environment scripting
every external interaction (API responses, prompt answers).  The
observable effects are collected into an event trace. -/

/-- Observable effects of a deploy invocation: the API calls it issues,
the prompts it shows, and the fixed sleeps it performs. -/
inductive Event where
  | fetchProject
  | fetchProjects
  | fetchBranch
  | fetchBranches
  | fetchPipelineByID
  | fetchPipelines
  | askConfirm
  | trigger
  | askCheck
  | statusFetch
  | sleep7
deriving Repr, DecidableEq

/-- How a deploy invocation ends.  `fatal` models `log.Fatalf`;
`returnedAfterPipelineFlag` models the early `return` taken right after
a successful pipeline-flag lookup; `panicked` models the nil-pointer
dereference in `searchPipeline` when `filterPipelineByName` returns nil;
`guardPipelineAbort`/`guardBranchAbort` are the protected-resource
fatals; `canceled` is the declined confirmation; `done` is a poll-loop
`break`; `outOfInput` means the scripted answers ran out while the loop
was still asking (the loop had not terminated). -/
inductive Outcome where
  | fatal (msg : String)
  | returnedAfterPipelineFlag (p : Pipeline)
  | panicked
  | guardPipelineAbort
  | guardBranchAbort
  | canceled
  | done
  | outOfInput
deriving Repr, DecidableEq

/-- The deploy command's parsed flags (`-b`, `-p`, `-c`). -/
structure Flags where
  branchFlag : String
  pipelineFlag : String
  currentFlag : Bool
deriving Repr, DecidableEq

/-- Environment scripting every external interaction of one deploy
invocation.  Selection prompts yield the index the user picked
(`none` is a prompt failure); `checkAnswers` and `statuses` script the
successive poll-loop prompt answers and status-fetch results. -/
structure DeployEnv where
  gitInfo : Except String (String × String)
  projectByName : String → Except String Project
  projects : Except String (List Project)
  projectChoice : Option Nat
  branchByName : String → String → Except ErrorResponse Branch
  branches : String → Except String (List Branch)
  branchChoice : Option Nat
  pipelines : String → Except String (List Pipeline)
  pipelineByID : String → String → Except String Pipeline
  pipelineChoice : Option Nat
  confirmAnswer : Option String
  runPipeline : String → Int → String → Except String PipelineExecutionResponse
  checkAnswers : List (Option String)
  statuses : List (Except String String)

/-- `filterPipelineByName` from cmd/deploy.go: first pipeline in list
order whose `Name` equals `name`, `none` when no element matches. -/
def filterPipelineByName (pipelines : List Pipeline) (name : String) : Option Pipeline :=
  match pipelines with
  | [] => none
  | p :: rest => if p.Name = name then some p else filterPipelineByName rest name

/-- `searchPipeline` from cmd/deploy.go, with the selection prompt's
returned index as `choice` (the ignored branch parameter is dropped):
build the label list from the pipelines' names, take the chosen label,
and re-derive the pipeline by `filterPipelineByName`.  A `none` result
corresponds to the nil-pointer dereference `*selectedPipeline`. -/
def searchPipeline (pipelinesArray : List Pipeline) (choice : Nat) : Option Pipeline :=
  let availablePipelines := pipelinesArray.map (fun p => p.Name)
  filterPipelineByName pipelinesArray (availablePipelines.getD choice "")

/-- `confirmDeployment` from cmd/deploy.go, as a function of the
validated prompt answer: `strings.ToLower(result) == "yes"`.  (The
prompt's validator only lets answers through whose lower-casing is
"yes" or "no".) -/
def confirmDeployment (answer : String) : Bool :=
  strToLower answer = "yes"

/-- The status-poll loop at the end of `deployCmd.Run`, over the
scripted prompt answers and status-fetch results.  Each iteration shows
the check-status prompt; a prompt failure or a non-"yes" answer breaks
the loop; on "yes" the status is fetched: a fetch error breaks,
`SUCCESSFUL`/`FAILED` print and break, `INPROGRESS` sleeps 7 seconds and
iterates, and any other status value falls through every branch and
iterates without sleeping. -/
def pollLoop (answers : List (Option String)) (statuses : List (Except String String)) :
    List Event × Outcome :=
  match answers, statuses with
  | [], _ => ([], Outcome.outOfInput)
  | none :: _, _ => ([Event.askCheck], Outcome.done)
  | some a :: rest, statuses =>
    if strToLower a = "yes" then
      match statuses with
      | [] => ([Event.askCheck], Outcome.outOfInput)
      | Except.error _ :: _ => ([Event.askCheck, Event.statusFetch], Outcome.done)
      | Except.ok s :: sts =>
        if s = "SUCCESSFUL" then
          ([Event.askCheck, Event.statusFetch], Outcome.done)
        else if s = "INPROGRESS" then
          let r := pollLoop rest sts
          (Event.askCheck :: Event.statusFetch :: Event.sleep7 :: r.1, r.2)
        else if s = "FAILED" then
          ([Event.askCheck, Event.statusFetch], Outcome.done)
        else
          let r := pollLoop rest sts
          (Event.askCheck :: Event.statusFetch :: r.1, r.2)
    else ([Event.askCheck], Outcome.done)

/-- The `currentFlag` step of `deployCmd.Run`: with `-c`, read the git
branch and directory, fatally on error; otherwise both stay empty. -/
def resolveCurrent (fl : Flags) (env : DeployEnv) : Except Outcome (String × String) :=
  if fl.currentFlag then
    match env.gitInfo with
    | Except.error e => Except.error (Outcome.fatal ("Error: " ++ e))
    | Except.ok bp => Except.ok bp
  else Except.ok ("", "")

/-- The project-resolution step of `deployCmd.Run`: with an argument (or
a current-directory project), look the project up by name, fatally on
error; otherwise list the projects and select one interactively. -/
def resolveProject (fl : Flags) (args : List String) (project0 : String)
    (env : DeployEnv) : List Event × Except Outcome String :=
  if 0 < args.length ∨ (fl.currentFlag ∧ project0 ≠ "") then
    let project := if project0 = "" then args.headD "" else project0
    ([Event.fetchProject],
     match env.projectByName project with
     | Except.error e => Except.error (Outcome.fatal ("Error: " ++ e))
     | Except.ok found => Except.ok found.Name)
  else
    ([Event.fetchProjects],
     match env.projects with
     | Except.error e => Except.error (Outcome.fatal ("Error fetching projects 2: " ++ e))
     | Except.ok projects =>
       match env.projectChoice with
       | none => Except.error (Outcome.fatal "Prompt failed")
       | some i => Except.ok ((projects.map (fun p => p.Name)).getD i ""))

/-- The branch-resolution step of `deployCmd.Run`: with `-b` or `-c`,
look the branch up by name, fatally on error; otherwise (branch still
empty) list the branches and select one interactively. -/
def resolveBranch (fl : Flags) (branch0 : String) (project : String)
    (env : DeployEnv) : List Event × Except Outcome String :=
  if fl.branchFlag ≠ "" ∨ fl.currentFlag then
    let branch := if branch0 = "" then fl.branchFlag else branch0
    ([Event.fetchBranch],
     match env.branchByName project branch with
     | Except.error e =>
       Except.error (Outcome.fatal
         ("Error: " ++ String.intercalate "; " (e.Errors.map (fun d => d.Message))))
     | Except.ok found => Except.ok found.Name)
  else if branch0 = "" then
    ([Event.fetchBranches],
     match env.branches project with
     | Except.error e => Except.error (Outcome.fatal ("Error fetching branches: " ++ e))
     | Except.ok bs =>
       match env.branchChoice with
       | none => Except.error (Outcome.fatal "Prompt failed")
       | some i => Except.ok ((bs.map (fun b => b.Name)).getD i ""))
  else ([], Except.ok branch0)

/-- The pipeline-resolution step of `deployCmd.Run`.  With `-p`, the
pipeline is looked up by ID, fatally on error — and on success the
source executes `return`, leaving the Run function before the guard,
the confirmation and the trigger (`returnedAfterPipelineFlag`).
Otherwise the pipelines are listed and one is selected interactively. -/
def resolvePipeline (fl : Flags) (project : String) (env : DeployEnv) :
    List Event × Except Outcome Pipeline :=
  if fl.pipelineFlag ≠ "" then
    ([Event.fetchPipelineByID],
     match env.pipelineByID project fl.pipelineFlag with
     | Except.error e => Except.error (Outcome.fatal ("Error: " ++ e))
     | Except.ok found => Except.error (Outcome.returnedAfterPipelineFlag found))
  else
    ([Event.fetchPipelines],
     match env.pipelines project with
     | Except.error e => Except.error (Outcome.fatal ("Error fetching pipelines: " ++ e))
     | Except.ok ps =>
       match env.pipelineChoice with
       | none => Except.error (Outcome.fatal "Prompt failed")
       | some i =>
         match searchPipeline ps i with
         | none => Except.error Outcome.panicked
         | some p => Except.ok p)

/-- The tail of `deployCmd.Run` once project, branch and pipeline are
resolved: the protected-pipeline then protected-branch guard (each a
fatal abort), the confirmation prompt (cancel on a non-"yes" answer),
the trigger, and the status-poll loop. -/
def finishDeploy (cfg : Config) (project branch : String) (pipeline : Pipeline)
    (env : DeployEnv) : List Event × Outcome :=
  if pipeline.Name = cfg.Protected.Pipeline then
    ([], Outcome.guardPipelineAbort)
  else if branch = cfg.Protected.Branch then
    ([], Outcome.guardBranchAbort)
  else
    match env.confirmAnswer with
    | none => ([Event.askConfirm], Outcome.fatal "Prompt failed")
    | some ans =>
      if confirmDeployment ans then
        match env.runPipeline project pipeline.ID branch with
        | Except.error e => ([Event.askConfirm, Event.trigger], Outcome.fatal ("Error: " ++ e))
        | Except.ok _ =>
          let r := pollLoop env.checkAnswers env.statuses
          (Event.askConfirm :: Event.trigger :: r.1, r.2)
      else ([Event.askConfirm], Outcome.canceled)

/-- `deployCmd.Run` from cmd/deploy.go: resolve the current git context,
the project, the branch and the pipeline in order (any failure is
fatal), then run the guard/confirmation/trigger/poll tail. -/
def deployRun (cfg : Config) (fl : Flags) (args : List String) (env : DeployEnv) :
    List Event × Outcome :=
  match resolveCurrent fl env with
  | Except.error out => ([], out)
  | Except.ok (branch0, project0) =>
    let r1 := resolveProject fl args project0 env
    match r1.2 with
    | Except.error out => (r1.1, out)
    | Except.ok project =>
      let r2 := resolveBranch fl branch0 project env
      match r2.2 with
      | Except.error out => (r1.1 ++ r2.1, out)
      | Except.ok branch =>
        let r3 := resolvePipeline fl project env
        match r3.2 with
        | Except.error out => (r1.1 ++ r2.1 ++ r3.1, out)
        | Except.ok pipeline =>
          let r4 := finishDeploy cfg project branch pipeline env
          (r1.1 ++ r2.1 ++ r3.1 ++ r4.1, r4.2)

/-- A concrete scripted environment for evaluating the embedded deploy
command on the interactive-pipeline path: project looked up by argument,
branch looked up via `-b` (resolving to "main"), one listed pipeline
named "CD" selected at index 0, confirmation answered "yes", trigger
succeeding, then one "no" poll answer. -/
def envInteractive : DeployEnv :=
  ⟨Except.ok ("", ""),
   fun _ => Except.ok ⟨"proj", "P", "ACTIVE"⟩,
   Except.error "",
   none,
   fun _ _ => Except.ok ⟨"", "", "main", false⟩,
   fun _ => Except.error "",
   none,
   fun _ => Except.ok [⟨"u", "h", 3, "CD", "NORMAL", []⟩],
   fun _ _ => Except.error "",
   some 0,
   some "yes",
   fun _ _ _ =>
     Except.ok ⟨42, "now", "INPROGRESS", "url", ⟨"me"⟩, ⟨"u", "h", 3, "CD", "NORMAL", []⟩⟩,
   [some "no"],
   []⟩

/-- A concrete scripted environment for evaluating the embedded deploy
command on the explicit-pipeline-flag path: every lookup succeeds (the
flag resolves to pipeline 12 "Staging"), confirmation would be "yes"
and the trigger would succeed if reached. -/
def envFlag : DeployEnv :=
  ⟨Except.ok ("", ""),
   fun _ => Except.ok ⟨"web", "Web", "ACTIVE"⟩,
   Except.error "",
   none,
   fun _ _ => Except.ok ⟨"", "", "feature", false⟩,
   fun _ => Except.error "",
   none,
   fun _ => Except.error "",
   fun _ _ => Except.ok ⟨"u", "h", 12, "Staging", "NORMAL", []⟩,
   none,
   some "yes",
   fun _ _ _ =>
     Except.ok ⟨42, "now", "INPROGRESS", "url", ⟨"me"⟩, ⟨"u", "h", 12, "Staging", "NORMAL", []⟩⟩,
   [some "no"],
   []⟩

/-- `envFlag` with a failing pipeline-by-ID lookup. -/
def envFlagFail : DeployEnv :=
  ⟨Except.ok ("", ""),
   fun _ => Except.ok ⟨"web", "Web", "ACTIVE"⟩,
   Except.error "",
   none,
   fun _ _ => Except.ok ⟨"", "", "feature", false⟩,
   fun _ => Except.error "",
   none,
   fun _ => Except.error "",
   fun _ _ => Except.error "pipeline not found",
   none,
   some "yes",
   fun _ _ _ =>
     Except.ok ⟨42, "now", "INPROGRESS", "url", ⟨"me"⟩, ⟨"u", "h", 12, "Staging", "NORMAL", []⟩⟩,
   [some "no"],
   []⟩

/-! ## Theorems -/

/-- C8: Configuration round-trip — saving any configuration record
(token, workspace, and optional protected branch/pipeline names) to the
config file and reloading it reproduces a structurally identical
record.  Fields whose `omitempty` tag suppresses them are exactly the
empty strings, which reload as the zero value they already were. -/
theorem config_roundtrip (c : Config) :
    loadConfig (some (saveConfig c)) = Except.ok c := by
  obtain ⟨tok, ws, pl, br⟩ := c
  by_cases hpl : pl = "" <;> by_cases hbr : br = "" <;>
    simp [loadConfig, saveConfig, marshalConfig, marshalProtected, unmarshalConfig,
      unmarshalProtected, decodeStrField, lookupField, decodeStr, hpl, hbr]

/-- C9: `config set <key> <value>` with a recognised key (token,
workspace, protected_pipeline, protected_branch — matched after
lower-casing) saves a configuration in which only that field changed,
every other field keeping its previously loaded value; an unrecognised
key is a fatal error before any save. -/
theorem setConfigFromArgs_frame (cfg : Config) (key value : String) (rest : List String) :
    (strToLower key = "token" →
      setConfigFromArgs cfg (key :: value :: rest) =
        SetConfigResult.saved { cfg with Token := value }) ∧
    (strToLower key = "workspace" →
      setConfigFromArgs cfg (key :: value :: rest) =
        SetConfigResult.saved { cfg with Workspace := value }) ∧
    (strToLower key = "protected_pipeline" →
      setConfigFromArgs cfg (key :: value :: rest) =
        SetConfigResult.saved
          { cfg with Protected := { cfg.Protected with Pipeline := value } }) ∧
    (strToLower key = "protected_branch" →
      setConfigFromArgs cfg (key :: value :: rest) =
        SetConfigResult.saved
          { cfg with Protected := { cfg.Protected with Branch := value } }) ∧
    (strToLower key ∉
        (["token", "workspace", "protected_pipeline", "protected_branch"] : List String) →
      setConfigFromArgs cfg (key :: value :: rest) =
        SetConfigResult.fatal
          ("Invalid argument: " ++ strToLower key ++ ". Use " ++ "token or workspace.")) := by
  refine ⟨fun h => ?_, fun h => ?_, fun h => ?_, fun h => ?_, fun h => ?_⟩
  · simp [setConfigFromArgs, h]
  · simp [setConfigFromArgs, h]
  · simp [setConfigFromArgs, h]
  · simp [setConfigFromArgs, h]
  · simp only [List.mem_cons, List.not_mem_nil, or_false, not_or] at h
    obtain ⟨h1, h2, h3, h4⟩ := h
    simp [setConfigFromArgs, h1, h2, h3, h4]

/-- C9 witness: updating the token changes only the token; an
unrecognised key is fatal. -/
theorem setConfigFromArgs_frame_witness :
    setConfigFromArgs ⟨"t1", "w1", ⟨"CD", "main"⟩⟩ ["token", "t2"] =
      SetConfigResult.saved ⟨"t2", "w1", ⟨"CD", "main"⟩⟩ ∧
    setConfigFromArgs ⟨"t1", "w1", ⟨"CD", "main"⟩⟩ ["PROTECTED_BRANCH", "dev"] =
      SetConfigResult.saved ⟨"t1", "w1", ⟨"CD", "dev"⟩⟩ ∧
    setConfigFromArgs ⟨"t1", "w1", ⟨"CD", "main"⟩⟩ ["color", "red"] =
      SetConfigResult.fatal
        ("Invalid argument: " ++ "color" ++ ". Use " ++ "token or workspace.") := by
  refine ⟨?_, ?_, ?_⟩
  · exact (setConfigFromArgs_frame ⟨"t1", "w1", ⟨"CD", "main"⟩⟩ "token" "t2" []).1 (by decide)
  · exact (setConfigFromArgs_frame ⟨"t1", "w1", ⟨"CD", "main"⟩⟩ "PROTECTED_BRANCH" "dev" []).2.2.2.1
      (by decide)
  · have := (setConfigFromArgs_frame ⟨"t1", "w1", ⟨"CD", "main"⟩⟩ "color" "red" []).2.2.2.2
      (by decide)
    simpa using this

/-- C10: `filterPipelineByName` returns the first pipeline in list order
whose `Name` equals the given name (`List.find?`), and `none` exactly
when no element matches; since the label the selection prompt hands to
`searchPipeline` is the name of the list element at the chosen index,
the re-derived pipeline is never `none` (no nil dereference) and is the
earliest pipeline bearing that name. -/
theorem searchPipeline_no_panic :
    (∀ (ps : List Pipeline) (name : String),
      filterPipelineByName ps name = ps.find? (fun p => p.Name == name)) ∧
    (∀ (ps : List Pipeline) (name : String),
      (filterPipelineByName ps name = none ↔ ∀ p ∈ ps, p.Name ≠ name)) ∧
    (∀ (ps : List Pipeline) (i : Nat), i < ps.length →
      ∀ (h : i < ps.length),
        searchPipeline ps i = filterPipelineByName ps (ps.get ⟨i, h⟩).Name ∧
        searchPipeline ps i ≠ none) := by
  have hfind : ∀ (ps : List Pipeline) (name : String),
      filterPipelineByName ps name = ps.find? (fun p => p.Name == name) := by
    intro ps name
    induction ps with
    | nil => rfl
    | cons p rest ih =>
      by_cases h : p.Name = name
      · simp [filterPipelineByName, h, List.find?_cons]
      · simp [filterPipelineByName, h, List.find?_cons, ih]
  have hnone : ∀ (ps : List Pipeline) (name : String),
      (filterPipelineByName ps name = none ↔ ∀ p ∈ ps, p.Name ≠ name) := by
    intro ps name
    rw [hfind]
    simp [List.find?_eq_none]
  refine ⟨hfind, hnone, ?_⟩
  intro ps i hi h
  have hlabel : (ps.map (fun p => p.Name)).getD i "" = (ps.get ⟨i, h⟩).Name := by
    rw [List.getD_eq_getElem?_getD, List.getElem?_map, List.getElem?_eq_getElem h]
    simp
  constructor
  · simp only [searchPipeline]
    rw [hlabel]
  · simp only [searchPipeline]
    rw [hlabel]
    intro hEq
    exact ((hnone ps _).mp hEq) (ps.get ⟨i, h⟩) (ps.get_mem _ _) rfl

/-- C10 witness: with two pipelines both named "CD" and the second one
selected, the re-derivation is non-nil and silently yields the earliest
of the two. -/
theorem searchPipeline_no_panic_witness :
    searchPipeline
        [⟨"u1", "h1", 1, "CD", "NORMAL", []⟩, ⟨"u2", "h2", 2, "CD", "NORMAL", []⟩] 1 ≠
      none ∧
    searchPipeline
        [⟨"u1", "h1", 1, "CD", "NORMAL", []⟩, ⟨"u2", "h2", 2, "CD", "NORMAL", []⟩] 1 =
      some ⟨"u1", "h1", 1, "CD", "NORMAL", []⟩ := by
  refine ⟨?_, by decide⟩
  exact ((searchPipeline_no_panic.2.2
    [⟨"u1", "h1", 1, "CD", "NORMAL", []⟩, ⟨"u2", "h2", 2, "CD", "NORMAL", []⟩]
    1 (by decide) (by decide)).2)

/-- C4: poll-loop step behaviour.  On `INPROGRESS` the iteration
records the prompt, the fetch and the fixed 7-second wait and returns to
the ask step (the loop continues on the remaining script); on
`SUCCESSFUL` or `FAILED` the iteration records the prompt and the fetch
and terminates with no further waiting or polling.  In the scenario
where the first poll returns `INPROGRESS` and the second `SUCCESSFUL`,
exactly two status fetches occur, the only wait sits between them, and
the loop stops. -/
theorem pollLoop_step_behavior :
    (∀ rest sts, pollLoop (some "yes" :: rest) (Except.ok "INPROGRESS" :: sts) =
      (Event.askCheck :: Event.statusFetch :: Event.sleep7 :: (pollLoop rest sts).1,
       (pollLoop rest sts).2)) ∧
    (∀ rest sts, pollLoop (some "yes" :: rest) (Except.ok "SUCCESSFUL" :: sts) =
      ([Event.askCheck, Event.statusFetch], Outcome.done)) ∧
    (∀ rest sts, pollLoop (some "yes" :: rest) (Except.ok "FAILED" :: sts) =
      ([Event.askCheck, Event.statusFetch], Outcome.done)) ∧
    (pollLoop [some "yes", some "yes"] [Except.ok "INPROGRESS", Except.ok "SUCCESSFUL"] =
      ([Event.askCheck, Event.statusFetch, Event.sleep7, Event.askCheck, Event.statusFetch],
       Outcome.done)) ∧
    ((pollLoop [some "yes", some "yes"]
        [Except.ok "INPROGRESS", Except.ok "SUCCESSFUL"]).1.count Event.statusFetch = 2) := by
  have hyes : strToLower "yes" = "yes" := by decide
  refine ⟨fun rest sts => ?_, fun rest sts => ?_, fun rest sts => ?_, by decide, by decide⟩
  · simp [pollLoop, hyes]
  · simp [pollLoop, hyes]
  · simp [pollLoop, hyes]

/-- C5: the check-status prompt is the first event of every poll-loop
iteration, and an answer whose lower-casing is not "yes" (in particular
"no") ends the loop at once: the iteration's whole trace is the single
prompt, with zero status fetches — so answering "no" immediately after
triggering issues no further network calls. -/
theorem pollLoop_ask_every_iteration :
    (∀ ans rest sts, ((pollLoop (ans :: rest) sts).1.head? = some Event.askCheck)) ∧
    (∀ a rest sts, strToLower a ≠ "yes" →
      pollLoop (some a :: rest) sts = ([Event.askCheck], Outcome.done)) ∧
    (∀ a rest sts, strToLower a ≠ "yes" →
      (pollLoop (some a :: rest) sts).1.count Event.statusFetch = 0) := by
  have hno : ∀ (a : String) (rest : List (Option String)) sts, strToLower a ≠ "yes" →
      pollLoop (some a :: rest) sts = ([Event.askCheck], Outcome.done) := by
    intro a rest sts h
    simp [pollLoop, h]
  refine ⟨?_, hno, fun a rest sts h => by simp [hno a rest sts h]⟩
  intro ans rest sts
  cases ans with
  | none => rfl
  | some a =>
    by_cases hy : strToLower a = "yes"
    · cases sts with
      | nil => simp [pollLoop, hy]
      | cons st sts =>
        cases st with
        | error e => simp [pollLoop, hy]
        | ok s =>
          by_cases h1 : s = "SUCCESSFUL"
          · simp [pollLoop, hy, h1]
          · by_cases h2 : s = "INPROGRESS"
            · simp [pollLoop, hy, h1, h2]
            · by_cases h3 : s = "FAILED"
              · simp [pollLoop, hy, h1, h2, h3]
              · simp [pollLoop, hy, h1, h2, h3]
    · simp [hno a rest sts hy]

/-- C3: evaluating the poll loop on a fetched `SKIPPED` status (with the
user answering "yes" each time): the loop does NOT terminate on the
unhandled status — no branch of the source matches it, so the loop
silently returns to the ask step, keeps polling (a second fetch
happens), and is still asking when the script runs out
(`Outcome.outOfInput`), contradicting the required graceful
termination. -/
theorem pollLoop_skipped_keeps_iterating :
    pollLoop [some "yes", some "yes"] [Except.ok "SKIPPED", Except.ok "SKIPPED"] =
      ([Event.askCheck, Event.statusFetch, Event.askCheck, Event.statusFetch],
       Outcome.outOfInput) ∧
    (pollLoop [some "yes", some "yes"]
        [Except.ok "SKIPPED", Except.ok "SKIPPED"]).1.count Event.statusFetch = 2 ∧
    pollLoop [some "yes"] [Except.ok "TERMINATED"] =
      ([Event.askCheck, Event.statusFetch], Outcome.outOfInput) := by
  refine ⟨by decide, by decide, by decide⟩

/-- C7 counterexample: a transport-level failure (no HTTP response at
all) makes `FetchBranchByName` fail, but with the dedicated
"Failed to fetch branch" message, not with the branch-not-found error
the claim says all failures are reported as. -/
theorem fetchBranch_transport_not_notfound :
    FetchBranchByName "proj" "dev" (HttpResult.transportError "connection refused") =
      Except.error ⟨[⟨"Failed to fetch branch: connection refused"⟩]⟩ ∧
    FetchBranchByName "proj" "dev" (HttpResult.transportError "connection refused") ≠
      Except.error (branchNotFoundError "proj" "dev") := by
  refine ⟨rfl, ?_⟩
  intro h
  simp [FetchBranchByName, branchNotFoundError] at h

/-- C7 amended: every HTTP response with a status other than 200 —
including non-404 API failures — is reported as the branch not being
found, without consulting the body; a 200 response whose body
unmarshals returns the decoded branch; transport-level failures fail
too, but with a distinct fetch-failure message. -/
theorem fetchBranchByName_errors :
    (∀ project branch status body, status ≠ 200 →
      FetchBranchByName project branch (HttpResult.response status body) =
        Except.error (branchNotFoundError project branch)) ∧
    (∀ project branch j b, unmarshalBranch j = some b →
      FetchBranchByName project branch (HttpResult.response 200 (HttpBody.json j)) =
        Except.ok b) ∧
    (∀ project branch msg,
      FetchBranchByName project branch (HttpResult.transportError msg) =
        Except.error ⟨[⟨"Failed to fetch branch: " ++ msg⟩]⟩) := by
  refine ⟨fun project branch status body h => ?_, fun project branch j b h => ?_,
    fun project branch msg => rfl⟩
  · simp [FetchBranchByName, h]
  · simp [FetchBranchByName, h]

/-- C7 witness: a 500 response is reported as branch-not-found; a 200
response with a well-formed body returns the decoded branch. -/
theorem fetchBranchByName_errors_witness :
    FetchBranchByName "p" "b" (HttpResult.response 500 HttpBody.invalidJson) =
      Except.error (branchNotFoundError "p" "b") ∧
    FetchBranchByName "p" "b"
        (HttpResult.response 200 (HttpBody.json (Json.obj [("name", Json.str "dev")]))) =
      Except.ok ⟨"", "", "dev", false⟩ := by
  refine ⟨fetchBranchByName_errors.1 "p" "b" 500 HttpBody.invalidJson (by decide), ?_⟩
  exact fetchBranchByName_errors.2.1 "p" "b" (Json.obj [("name", Json.str "dev")])
    ⟨"", "", "dev", false⟩ rfl

/-- C5 witness: answering "no" at the first ask ends the loop with only
the prompt in the trace and zero status fetches. -/
theorem pollLoop_ask_every_iteration_witness :
    pollLoop [some "no"] [Except.ok "SUCCESSFUL"] = ([Event.askCheck], Outcome.done) ∧
    (pollLoop [some "no"] [Except.ok "SUCCESSFUL"]).1.count Event.statusFetch = 0 := by
  exact ⟨pollLoop_ask_every_iteration.2.1 "no" [] [Except.ok "SUCCESSFUL"] (by decide),
         pollLoop_ask_every_iteration.2.2 "no" [] [Except.ok "SUCCESSFUL"] (by decide)⟩

/-- The poll loop ends either by a `break` (`done`) or by exhausting the
scripted input while still iterating (`outOfInput`); it never produces
any other outcome. -/
theorem pollLoop_outcomes (answers : List (Option String)) (sts : List (Except String String)) :
    (pollLoop answers sts).2 = Outcome.done ∨ (pollLoop answers sts).2 = Outcome.outOfInput := by
  induction answers generalizing sts with
  | nil => right; rfl
  | cons ans rest ih =>
    cases ans with
    | none => left; rfl
    | some a =>
      by_cases hy : strToLower a = "yes"
      · cases sts with
        | nil => right; simp [pollLoop, hy]
        | cons st sts =>
          cases st with
          | error e => left; simp [pollLoop, hy]
          | ok s =>
            by_cases h1 : s = "SUCCESSFUL"
            · left; simp [pollLoop, hy, h1]
            · by_cases h2 : s = "INPROGRESS"
              · simpa [pollLoop, hy, h1, h2] using ih sts
              · by_cases h3 : s = "FAILED"
                · left; simp [pollLoop, hy, h1, h2, h3]
                · simpa [pollLoop, hy, h1, h2, h3] using ih sts
      · left; simp [pollLoop, hy]

/-- The project-resolution step only ever issues a project fetch. -/
theorem resolveProject_events (fl : Flags) (args : List String) (p0 : String)
    (env : DeployEnv) :
    ∀ e ∈ (resolveProject fl args p0 env).1,
      e = Event.fetchProject ∨ e = Event.fetchProjects := by
  intro e he
  unfold resolveProject at he
  repeat' split at he
  all_goals simp_all

/-- The branch-resolution step only ever issues a branch fetch. -/
theorem resolveBranch_events (fl : Flags) (b0 project : String) (env : DeployEnv) :
    ∀ e ∈ (resolveBranch fl b0 project env).1,
      e = Event.fetchBranch ∨ e = Event.fetchBranches := by
  intro e he
  unfold resolveBranch at he
  repeat' split at he
  all_goals simp_all

/-- The pipeline-resolution step only ever issues a pipeline fetch. -/
theorem resolvePipeline_events (fl : Flags) (project : String) (env : DeployEnv) :
    ∀ e ∈ (resolvePipeline fl project env).1,
      e = Event.fetchPipelineByID ∨ e = Event.fetchPipelines := by
  intro e he
  unfold resolvePipeline at he
  repeat' split at he
  all_goals simp_all

/-- A trigger event can only come from the confirm-true branch of the
deploy tail, so it certifies an explicit (lower-cased) "yes" answer. -/
theorem finishDeploy_trigger_confirm (cfg : Config) (project branch : String)
    (pipeline : Pipeline) (env : DeployEnv) :
    Event.trigger ∈ (finishDeploy cfg project branch pipeline env).1 →
    ∃ a, env.confirmAnswer = some a ∧ confirmDeployment a = true := by
  intro h
  by_cases g1 : pipeline.Name = cfg.Protected.Pipeline
  · simp [finishDeploy, g1] at h
  · by_cases g2 : branch = cfg.Protected.Branch
    · simp [finishDeploy, g1, g2] at h
    · rcases hca : env.confirmAnswer with _ | a
      · simp [finishDeploy, g1, g2, hca] at h
      · by_cases hcd : confirmDeployment a = true
        · refine ⟨a, ?_, hcd⟩
          simp [hca]
        · simp [finishDeploy, g1, g2, hca, hcd] at h

/-- The guard at the head of the deploy tail: a protected-pipeline match
aborts, otherwise a protected-branch match aborts, and with neither
match the tail reaches the confirmation prompt and never produces a
guard abort. -/
theorem finishDeploy_guard (cfg : Config) (project branch : String) (pipeline : Pipeline)
    (env : DeployEnv) :
    (pipeline.Name = cfg.Protected.Pipeline →
      finishDeploy cfg project branch pipeline env = ([], Outcome.guardPipelineAbort)) ∧
    (pipeline.Name ≠ cfg.Protected.Pipeline → branch = cfg.Protected.Branch →
      finishDeploy cfg project branch pipeline env = ([], Outcome.guardBranchAbort)) ∧
    (pipeline.Name ≠ cfg.Protected.Pipeline → branch ≠ cfg.Protected.Branch →
      Event.askConfirm ∈ (finishDeploy cfg project branch pipeline env).1 ∧
      (finishDeploy cfg project branch pipeline env).2 ≠ Outcome.guardPipelineAbort ∧
      (finishDeploy cfg project branch pipeline env).2 ≠ Outcome.guardBranchAbort) := by
  refine ⟨fun h1 => by simp [finishDeploy, h1], fun h1 h2 => by simp [finishDeploy, h1, h2],
    fun h1 h2 => ?_⟩
  rcases hca : env.confirmAnswer with _ | a
  · simp [finishDeploy, h1, h2, hca]
  · by_cases hcd : confirmDeployment a = true
    · rcases hrp : env.runPipeline project pipeline.ID branch with err | ex
      · simp [finishDeploy, h1, h2, hca, hcd, hrp]
      · have hout := pollLoop_outcomes env.checkAnswers env.statuses
        simp only [finishDeploy, h1, h2, hca, hcd, hrp, if_neg, if_pos, ite_false, ite_true]
        rcases hout with hout | hout <;> simp [finishDeploy, h1, h2, hca, hcd, hrp, hout]
    · simp [finishDeploy, h1, h2, hca, hcd]

/-- When the git step and all three resolution steps succeed, the deploy
command is exactly the concatenation of their traces with the
guard/confirmation/trigger/poll tail. -/
theorem deployRun_decompose (cfg : Config) (fl : Flags) (args : List String)
    (env : DeployEnv) (b0 p0 : String) (e1 e2 e3 : List Event)
    (project branch : String) (pipeline : Pipeline)
    (hc : resolveCurrent fl env = Except.ok (b0, p0))
    (h1 : resolveProject fl args p0 env = (e1, Except.ok project))
    (h2 : resolveBranch fl b0 project env = (e2, Except.ok branch))
    (h3 : resolvePipeline fl project env = (e3, Except.ok pipeline)) :
    deployRun cfg fl args env =
      (e1 ++ e2 ++ e3 ++ (finishDeploy cfg project branch pipeline env).1,
       (finishDeploy cfg project branch pipeline env).2) := by
  unfold deployRun
  rw [hc]
  simp [h1, h2, h3]

/-- C6: triggering happens only after an explicit "yes" answer — a
trigger event in any deploy invocation certifies a confirmation answer
whose lower-casing is "yes" — and any other validated answer (in
particular "no") makes the tail cancel the deployment, with outcome
`canceled` and no error. -/
theorem confirm_gates_trigger :
    (∀ ans, confirmDeployment ans = true ↔ strToLower ans = "yes") ∧
    (∀ (cfg : Config) (fl : Flags) (args : List String) (env : DeployEnv),
      Event.trigger ∈ (deployRun cfg fl args env).1 →
      ∃ a, env.confirmAnswer = some a ∧ confirmDeployment a = true) ∧
    (∀ (cfg : Config) (project branch : String) (pipeline : Pipeline) (env : DeployEnv)
        (a : String),
      env.confirmAnswer = some a → confirmDeployment a = false →
      pipeline.Name ≠ cfg.Protected.Pipeline → branch ≠ cfg.Protected.Branch →
      finishDeploy cfg project branch pipeline env =
        ([Event.askConfirm], Outcome.canceled)) := by
  refine ⟨fun ans => by simp [confirmDeployment], ?_, ?_⟩
  · intro cfg fl args env htr
    unfold deployRun at htr
    rcases hc : resolveCurrent fl env with out | ⟨b0, p0⟩ <;> simp only [hc] at htr
    · simp at htr
    · rcases h1 : resolveProject fl args p0 env with ⟨e1, r1⟩
      simp only [h1] at htr
      have hev1 : ∀ e ∈ e1, e = Event.fetchProject ∨ e = Event.fetchProjects := by
        have h := resolveProject_events fl args p0 env
        rw [h1] at h
        exact h
      cases r1 with
      | error out =>
        rcases hev1 Event.trigger (by simpa using htr) with h | h <;> simp at h
      | ok project =>
        rcases h2 : resolveBranch fl b0 project env with ⟨e2, r2⟩
        simp only [h2] at htr
        have hev2 : ∀ e ∈ e2, e = Event.fetchBranch ∨ e = Event.fetchBranches := by
          have h := resolveBranch_events fl b0 project env
          rw [h2] at h
          exact h
        cases r2 with
        | error out =>
          rcases (by simpa using htr : Event.trigger ∈ e1 ∨ Event.trigger ∈ e2) with hm | hm
          · rcases hev1 Event.trigger hm with h | h <;> simp at h
          · rcases hev2 Event.trigger hm with h | h <;> simp at h
        | ok branch =>
          rcases h3 : resolvePipeline fl project env with ⟨e3, r3⟩
          simp only [h3] at htr
          have hev3 : ∀ e ∈ e3,
              e = Event.fetchPipelineByID ∨ e = Event.fetchPipelines := by
            have h := resolvePipeline_events fl project env
            rw [h3] at h
            exact h
          cases r3 with
          | error out =>
            rcases (by simpa using htr :
                Event.trigger ∈ e1 ∨ Event.trigger ∈ e2 ∨ Event.trigger ∈ e3) with
              hm | hm | hm
            · rcases hev1 Event.trigger hm with h | h <;> simp at h
            · rcases hev2 Event.trigger hm with h | h <;> simp at h
            · rcases hev3 Event.trigger hm with h | h <;> simp at h
          | ok pipeline =>
            rcases (by simpa using htr :
                Event.trigger ∈ e1 ∨ Event.trigger ∈ e2 ∨ Event.trigger ∈ e3 ∨
                Event.trigger ∈ (finishDeploy cfg project branch pipeline env).1) with
              hm | hm | hm | hm
            · rcases hev1 Event.trigger hm with h | h <;> simp at h
            · rcases hev2 Event.trigger hm with h | h <;> simp at h
            · rcases hev3 Event.trigger hm with h | h <;> simp at h
            · exact finishDeploy_trigger_confirm cfg project branch pipeline env hm
  · intro cfg project branch pipeline env a hca hcd hp hb
    simp [finishDeploy, hp, hb, hca, hcd]

/-- C6 witness: with a "no" answer (and no protected match) the tail
shows the confirmation prompt and cancels. -/
theorem confirm_gates_trigger_witness :
    finishDeploy ⟨"t", "w", ⟨"CD", "main"⟩⟩ "proj" "dev"
        ⟨"u", "h", 1, "Deploy", "NORMAL", []⟩
        ⟨Except.ok ("", ""), fun _ => Except.error "", Except.error "", none,
         fun _ _ => Except.error ⟨[]⟩, fun _ => Except.error "", none,
         fun _ => Except.error "", fun _ _ => Except.error "", none,
         some "no", fun _ _ _ => Except.error "", [], []⟩ =
      ([Event.askConfirm], Outcome.canceled) := by
  exact confirm_gates_trigger.2.2 ⟨"t", "w", ⟨"CD", "main"⟩⟩ "proj" "dev"
    ⟨"u", "h", 1, "Deploy", "NORMAL", []⟩
    ⟨Except.ok ("", ""), fun _ => Except.error "", Except.error "", none,
     fun _ _ => Except.error ⟨[]⟩, fun _ => Except.error "", none,
     fun _ => Except.error "", fun _ _ => Except.error "", none,
     some "no", fun _ _ _ => Except.error "", [], []⟩
    "no" rfl (by decide) (by decide) (by decide)

/-- C1 counterexample: a deploy invocation with an explicit pipeline
flag resolves project, branch and pipeline, matches NEITHER protected
name — yet the deployment does not proceed: the command returns right
after the pipeline lookup, with no confirmation prompt and no trigger,
refuting the claim that it proceeds whenever neither name matches. -/
theorem deploy_guard_counterexample :
    deployRun ⟨"t", "w", ⟨"CD", "main"⟩⟩ ⟨"dev", "7", false⟩ ["proj"]
        ⟨Except.ok ("", ""), fun _ => Except.ok ⟨"proj", "P", "ACTIVE"⟩, Except.error "",
         none, fun _ _ => Except.ok ⟨"", "", "dev", false⟩, fun _ => Except.error "", none,
         fun _ => Except.error "", fun _ _ => Except.ok ⟨"u", "h", 7, "Deploy", "NORMAL", []⟩,
         none, some "yes", fun _ _ _ => Except.error "", [], []⟩ =
      ([Event.fetchProject, Event.fetchBranch, Event.fetchPipelineByID],
       Outcome.returnedAfterPipelineFlag ⟨"u", "h", 7, "Deploy", "NORMAL", []⟩) ∧
    ("Deploy" : String) ≠ "CD" ∧ ("dev" : String) ≠ "main" ∧
    Event.trigger ∉
      ([Event.fetchProject, Event.fetchBranch, Event.fetchPipelineByID] : List Event) ∧
    Event.askConfirm ∉
      ([Event.fetchProject, Event.fetchBranch, Event.fetchPipelineByID] : List Event) := by
  refine ⟨by decide, by decide, by decide, by decide, by decide⟩

/-- C1 amended: for every deploy invocation WITHOUT an explicit pipeline
flag whose git step and three resolution steps succeed, the deployment
is refused before the confirmation prompt and the trigger exactly when
the resolved pipeline name equals `protected.pipeline` or the resolved
branch name equals `protected.branch` (case-sensitive exact equality:
names differing only in case do not trigger the guard), and otherwise
reaches the confirmation prompt with no guard abort.  (With a pipeline
flag the source returns before the guard; see the counterexample.) -/
theorem deploy_guard_exact_match (cfg : Config) (fl : Flags) (args : List String)
    (env : DeployEnv) (b0 p0 : String) (e1 e2 e3 : List Event)
    (project branch : String) (pipeline : Pipeline)
    (_hflag : fl.pipelineFlag = "")
    (hc : resolveCurrent fl env = Except.ok (b0, p0))
    (h1 : resolveProject fl args p0 env = (e1, Except.ok project))
    (h2 : resolveBranch fl b0 project env = (e2, Except.ok branch))
    (h3 : resolvePipeline fl project env = (e3, Except.ok pipeline)) :
    ((pipeline.Name = cfg.Protected.Pipeline ∨ branch = cfg.Protected.Branch) →
      ((deployRun cfg fl args env).2 = Outcome.guardPipelineAbort ∨
       (deployRun cfg fl args env).2 = Outcome.guardBranchAbort) ∧
      Event.trigger ∉ (deployRun cfg fl args env).1 ∧
      Event.askConfirm ∉ (deployRun cfg fl args env).1) ∧
    ((pipeline.Name ≠ cfg.Protected.Pipeline ∧ branch ≠ cfg.Protected.Branch) →
      (deployRun cfg fl args env).2 ≠ Outcome.guardPipelineAbort ∧
      (deployRun cfg fl args env).2 ≠ Outcome.guardBranchAbort ∧
      Event.askConfirm ∈ (deployRun cfg fl args env).1) := by
  have hdec := deployRun_decompose cfg fl args env b0 p0 e1 e2 e3 project branch pipeline
    hc h1 h2 h3
  have hev1 : ∀ e ∈ e1, e = Event.fetchProject ∨ e = Event.fetchProjects := by
    have h := resolveProject_events fl args p0 env
    rw [h1] at h
    exact h
  have hev2 : ∀ e ∈ e2, e = Event.fetchBranch ∨ e = Event.fetchBranches := by
    have h := resolveBranch_events fl b0 project env
    rw [h2] at h
    exact h
  have hev3 : ∀ e ∈ e3, e = Event.fetchPipelineByID ∨ e = Event.fetchPipelines := by
    have h := resolvePipeline_events fl project env
    rw [h3] at h
    exact h
  have hresolve : ∀ e, e ∈ e1 ∨ e ∈ e2 ∨ e ∈ e3 →
      e ≠ Event.trigger ∧ e ≠ Event.askConfirm := by
    rintro e (hm | hm | hm)
    · rcases hev1 e hm with h | h <;> simp [h]
    · rcases hev2 e hm with h | h <;> simp [h]
    · rcases hev3 e hm with h | h <;> simp [h]
  have htr3 : Event.trigger ∉ e1 ++ e2 ++ e3 := by
    intro hm
    rcases List.mem_append.mp hm with hm1 | hm1
    · rcases List.mem_append.mp hm1 with hm2 | hm2
      · exact (hresolve _ (Or.inl hm2)).1 rfl
      · exact (hresolve _ (Or.inr (Or.inl hm2))).1 rfl
    · exact (hresolve _ (Or.inr (Or.inr hm1))).1 rfl
  have hac3 : Event.askConfirm ∉ e1 ++ e2 ++ e3 := by
    intro hm
    rcases List.mem_append.mp hm with hm1 | hm1
    · rcases List.mem_append.mp hm1 with hm2 | hm2
      · exact (hresolve _ (Or.inl hm2)).2 rfl
      · exact (hresolve _ (Or.inr (Or.inl hm2))).2 rfl
    · exact (hresolve _ (Or.inr (Or.inr hm1))).2 rfl
  constructor
  · intro hmatch
    have hfd : finishDeploy cfg project branch pipeline env = ([], Outcome.guardPipelineAbort) ∨
        finishDeploy cfg project branch pipeline env = ([], Outcome.guardBranchAbort) := by
      by_cases hp : pipeline.Name = cfg.Protected.Pipeline
      · exact Or.inl ((finishDeploy_guard cfg project branch pipeline env).1 hp)
      · rcases hmatch with hm | hm
        · exact absurd hm hp
        · exact Or.inr ((finishDeploy_guard cfg project branch pipeline env).2.1 hp hm)
    rcases hfd with hfd | hfd <;>
      · rw [hdec, hfd]
        exact ⟨by simp, by simpa using htr3, by simpa using hac3⟩
  · rintro ⟨hp, hb⟩
    obtain ⟨hask, hne1, hne2⟩ := (finishDeploy_guard cfg project branch pipeline env).2.2 hp hb
    rw [hdec]
    exact ⟨hne1, hne2, List.mem_append_right _ hask⟩

/-- C1 witness: with protected names "cd"/"MAIN" and resolved names
"CD"/"main" — differing only in case — the guard does not fire and the
deployment reaches the confirmation prompt. -/
theorem deploy_guard_exact_match_witness :
    (deployRun ⟨"t", "w", ⟨"cd", "MAIN"⟩⟩ ⟨"feature", "", false⟩ ["proj"] envInteractive).2 ≠
      Outcome.guardPipelineAbort ∧
    (deployRun ⟨"t", "w", ⟨"cd", "MAIN"⟩⟩ ⟨"feature", "", false⟩ ["proj"] envInteractive).2 ≠
      Outcome.guardBranchAbort ∧
    Event.askConfirm ∈
      (deployRun ⟨"t", "w", ⟨"cd", "MAIN"⟩⟩ ⟨"feature", "", false⟩ ["proj"]
        envInteractive).1 := by
  exact (deploy_guard_exact_match ⟨"t", "w", ⟨"cd", "MAIN"⟩⟩ ⟨"feature", "", false⟩ ["proj"]
    envInteractive "" "" [Event.fetchProject] [Event.fetchBranch] [Event.fetchPipelines]
    "proj" "main" ⟨"u", "h", 3, "CD", "NORMAL", []⟩ rfl rfl rfl rfl rfl).2
    ⟨by decide, by decide⟩

/-- C2: with an explicit pipeline flag the command does resolve the
pipeline by direct lookup and is fatal when the lookup fails — but on a
successful lookup it does NOT continue the flow: the source's `return`
ends the invocation right after the lookup, so no guard, no
confirmation prompt and no trigger ever happen, contradicting the
claimed continuation. -/
theorem deploy_pipelineFlag_early_return :
    deployRun ⟨"t", "w", ⟨"CD", "main"⟩⟩ ⟨"feature", "12", false⟩ ["web"] envFlag =
      ([Event.fetchProject, Event.fetchBranch, Event.fetchPipelineByID],
       Outcome.returnedAfterPipelineFlag ⟨"u", "h", 12, "Staging", "NORMAL", []⟩) ∧
    Event.trigger ∉
      (deployRun ⟨"t", "w", ⟨"CD", "main"⟩⟩ ⟨"feature", "12", false⟩ ["web"] envFlag).1 ∧
    Event.askConfirm ∉
      (deployRun ⟨"t", "w", ⟨"CD", "main"⟩⟩ ⟨"feature", "12", false⟩ ["web"] envFlag).1 ∧
    deployRun ⟨"t", "w", ⟨"CD", "main"⟩⟩ ⟨"feature", "12", false⟩ ["web"] envFlagFail =
      ([Event.fetchProject, Event.fetchBranch, Event.fetchPipelineByID],
       Outcome.fatal "Error: pipeline not found") := by
  refine ⟨rfl, by decide, by decide, rfl⟩

end GoBuddy
